import Mathlib

/-!
Shallow embedding of the staking farm contract (`src/lib.rs` of `stake_rs`).

Modelling conventions:

* `Balance` (`u128`) and `Timestamp` (`u64`) values are embedded as `Nat`
  together with explicit range-checked arithmetic: every native integer
  operation aborts on overflow or underflow (NEAR contracts are built with
  overflow checks enabled, and the specification requires arithmetic overflow
  to be fatal rather than wrapping).
* `U256` arithmetic (the `construct_uint!` type) panics on multiplication
  overflow, on division by zero, and in `as_u128` when the value exceeds
  `u128::MAX`; each of these is an explicit guard returning `Except.error`.
* The ledger `LookupMap<ShortAccountHash, Account>` is embedded as a function
  `String → Option Account`.  The 20-byte sha256-derived key is a deterministic
  function of the account id, so keying directly by the id is observationally
  faithful; hash collisions are outside the scope of the verified claims.
* A panicking public method is a `Res.abort`, recording the panic message, the
  in-memory farm state at the panic site, and the promise actions issued up to
  that point.  The platform reverts the transaction on panic, so this state is
  discarded; it is kept visible here so that statements about what was or was
  not mutated before an abort can be made precise.
* Promise creation (`ft_transfer` and the `on_transfer` self-callback) is
  recorded as a list of `PromiseAct` values; the promises themselves execute in
  later, independent units of work.
-/

/-- Fixed-point denominator `10^18` (`OBS_PER_REWARD_DENOM` in the source). -/
def OBS_PER_REWARD_DENOM : Nat := 1000000000000000000

/-- Exclusive upper bound of the `u128` range. -/
def U128_LIMIT : Nat := 2 ^ 128

/-- Exclusive upper bound of the `U256` range. -/
def U256_LIMIT : Nat := 2 ^ 256

/-- Checked `u128` addition: Rust `a + b` with overflow checks. -/
def u128Add (a b : Nat) : Except String Nat :=
  if a + b < U128_LIMIT then .ok (a + b) else .error "attempt to add with overflow"

/-- Checked `u128` subtraction: Rust `a - b` with overflow checks. -/
def u128Sub (a b : Nat) : Except String Nat :=
  if b ≤ a then .ok (a - b) else .error "attempt to subtract with overflow"

/-- Checked `u128` multiplication: Rust `a * b` with overflow checks. -/
def u128Mul (a b : Nat) : Except String Nat :=
  if a * b < U128_LIMIT then .ok (a * b) else .error "attempt to multiply with overflow"

/-- Checked `u64` subtraction (used on timestamps). -/
def u64Sub (a b : Nat) : Except String Nat :=
  if b ≤ a then .ok (a - b) else .error "attempt to subtract with overflow"

/-- `U256` multiplication; the `uint` crate panics on overflow. -/
def u256Mul (a b : Nat) : Except String Nat :=
  if a * b < U256_LIMIT then .ok (a * b) else .error "arithmetic operation overflow"

/-- `U256` floor division; panics on a zero divisor. -/
def u256Div (a b : Nat) : Except String Nat :=
  if b = 0 then .error "division by zero" else .ok (a / b)

/-- `U256::as_u128`; panics when the value does not fit in `u128`. -/
def u256AsU128 (a : Nat) : Except String Nat :=
  if a < U128_LIMIT then .ok a else .error "Integer overflow when casting to u128"

/-- Per-depositor record (`struct Account` in the source). -/
structure Account where
  obs_balance : Nat
  reward_balance : Nat
  reward_claimed : Nat
  last_obs_per_reward_rate : Nat
  deposit_time : Nat
deriving DecidableEq

/-- Contract state (`struct Farm` in the source).  `accounts` embeds the
`LookupMap` keyed by the deterministic digest of the account id. -/
structure Farm where
  obs_token_account_id : String
  reward_token_account_id : String
  accounts : String → Option Account
  reward_rate : Nat
  obs_per_reward_rate : Nat
  staking_fee_rate : Nat
  cliff_time : Nat
  reward_interval : Nat
  total_obs_balance : Nat
  total_reward_farmed : Nat
  total_reward_claimed : Nat

/-- Blockchain environment visible to a single method invocation. -/
structure Env where
  predecessor_account_id : String
  current_account_id : String
  block_timestamp : Nat
  attached_deposit : Nat

/-- Outbound promise created during a method invocation. -/
inductive PromiseAct where
  | ftTransfer (token_contract receiver : String) (amount : Nat) (deposit : Nat)
  | onTransferCall (sender receiver : String) (amount : Nat)
deriving DecidableEq

/-- Result of one public method invocation: either a normal return carrying the
new farm state and the issued promises, or a panic (`abort`) carrying the
in-memory state at the panic site (reverted by the platform). -/
inductive Res (α : Type) where
  | ok (val : α) (farm : Farm) (actions : List PromiseAct)
  | abort (msg : String) (farm : Farm) (actions : List PromiseAct)

/-- Farm state carried by a result (at return or at the panic site). -/
def Res.farm {α : Type} : Res α → Farm
  | .ok _ f _ => f
  | .abort _ f _ => f

/-- Promise actions carried by a result. -/
def Res.actions {α : Type} : Res α → List PromiseAct
  | .ok _ _ acts => acts
  | .abort _ _ acts => acts

/-- True when the invocation panicked. -/
def Res.isAbort {α : Type} : Res α → Bool
  | .ok _ _ _ => false
  | .abort _ _ _ => true

/-- True when the invocation returned normally. -/
def Res.isOk {α : Type} : Res α → Bool
  | .ok _ _ _ => true
  | .abort _ _ _ => false

/-- Initial farm state built by `Farm::new`.  The two `register_account`
promises sent to the token contracts during `new` do not affect `Self` and are
not part of the state. -/
def Farm.new (obs_token_account_id reward_token_account_id : String) : Farm :=
  { obs_token_account_id := obs_token_account_id
    reward_token_account_id := reward_token_account_id
    accounts := fun _ => none
    reward_rate := 1800
    obs_per_reward_rate := 0
    staking_fee_rate := 25
    cliff_time := 60 * 60 * 24 * 10
    reward_interval := 60 * 60 * 24 * 365
    total_obs_balance := 0
    total_reward_farmed := 0
    total_reward_claimed := 0 }

/-- Embedding of `Farm::get_internal_account`: the derived key (here the id
itself) together with the stored record, if any. -/
def get_internal_account (f : Farm) (account_id : String) : String × Option Account :=
  (account_id, f.accounts account_id)

/-- Default record built by `get_mut_account` for an unknown account. -/
def default_account (f : Farm) : Account :=
  { obs_balance := 0
    reward_balance := 0
    reward_claimed := 0
    last_obs_per_reward_rate := f.obs_per_reward_rate
    deposit_time := 0 }

/-- Record loaded (or lazily created) for an account id, before `touch`. -/
def loaded_account (f : Farm) (account_id : String) : Account :=
  ((get_internal_account f account_id).2).getD (default_account f)

/-- Pure value of the accrual formula:
`obs * elapsed * reward_rate / reward_interval * 10^18` (floor division). -/
def earned (f : Farm) (obs time_diff : Nat) : Nat :=
  obs * time_diff * f.reward_rate / f.reward_interval * OBS_PER_REWARD_DENOM

/-- Embedding of `Farm::touch`.  Computes `earned_balance` in `U256`, credits
it to the account and to `total_reward_farmed` when the elapsed time strictly
exceeds the cliff, and returns the stored rate snapshot of the account.  On a panic
inside `touch` the farm is unchanged: every panic site in the Rust body
precedes the single write to `self` (`self.total_reward_farmed += ...`), so
callers report their own pre-call farm state on `Except.error`. -/
def touch (f : Farm) (a : Account) (now : Nat) : Except String (Farm × Account × Nat) :=
  match u64Sub now a.deposit_time with
  | .error e => .error e
  | .ok time_diff =>
    match u256Mul a.obs_balance time_diff with
    | .error e => .error e
    | .ok p1 =>
      match u256Mul p1 f.reward_rate with
      | .error e => .error e
      | .ok p2 =>
        match u256Div p2 f.reward_interval with
        | .error e => .error e
        | .ok q =>
          match u256Mul q OBS_PER_REWARD_DENOM with
          | .error e => .error e
          | .ok scaled =>
            match u256AsU128 scaled with
            | .error e => .error e
            | .ok earned_balance =>
              if f.cliff_time < time_diff then
                match u128Add a.reward_balance earned_balance with
                | .error e => .error e
                | .ok rb =>
                  match u128Add f.total_reward_farmed earned_balance with
                  | .error e => .error e
                  | .ok trf =>
                    .ok ({ f with total_reward_farmed := trf },
                         { a with reward_balance := rb },
                         a.last_obs_per_reward_rate)
              else
                .ok (f, a, a.last_obs_per_reward_rate)

/-- Embedding of `Farm::get_mut_account`: load or lazily create the record,
then `touch` it.  The derived key returned by the Rust function is the id
itself in this embedding, so it is omitted. -/
def get_mut_account (f : Farm) (account_id : String) (now : Nat) :
    Except String (Farm × Account) :=
  match touch f (loaded_account f account_id) now with
  | .error e => .error e
  | .ok (f1, a1, _snap) => .ok (f1, a1)

/-- Embedding of `Farm::save_account`: insert the record under the derived
key. -/
def save_account (f : Farm) (account_id : String) (a : Account) : Farm :=
  { f with accounts := fun k => if k = account_id then some a else f.accounts k }

/-- Embedding of `Farm::stake_my_obs`. -/
def stake_my_obs (f : Farm) (e : Env) (amount : Nat) : Res Account :=
  if e.attached_deposit ≠ 1 then
    .abort "Requires attached deposit of exactly 1 yoctoNEAR" f []
  else if amount = 0 then
    .abort "Amount must be greater than 0" f []
  else
    match u128Mul amount f.staking_fee_rate with
    | .error m => .abort m f []
    | .ok partFee =>
      match u128Mul partFee OBS_PER_REWARD_DENOM with
      | .error m => .abort m f []
      | .ok fee =>
        match u128Add amount fee with
        | .error m => .abort m f []
        | .ok attached_deposit =>
          match get_mut_account f e.predecessor_account_id e.block_timestamp with
          | .error m => .abort m f []
          | .ok (f1, account0) =>
            let account1 := { account0 with
              obs_balance := attached_deposit
              reward_balance := 0
              reward_claimed := 0 }
            match touch f1 account1 e.block_timestamp with
            | .error m => .abort m f1 []
            | .ok (f2, account2, snap) =>
              let account3 := { account2 with
                last_obs_per_reward_rate := snap
                deposit_time := e.block_timestamp }
              match u64Sub e.block_timestamp f2.cliff_time with
              | .error m => .abort m f2 []
              | .ok time_diff =>
                match u256Mul attached_deposit time_diff with
                | .error m => .abort m f2 []
                | .ok q1 =>
                  match u256Mul q1 f2.reward_rate with
                  | .error m => .abort m f2 []
                  | .ok q2 =>
                    match u256Div q2 f2.reward_interval with
                    | .error m => .abort m f2 []
                    | .ok q3 =>
                      match u256Mul q3 OBS_PER_REWARD_DENOM with
                      | .error m => .abort m f2 []
                      | .ok q4 =>
                        match u256AsU128 q4 with
                        | .error m => .abort m f2 []
                        | .ok obs_per_reward =>
                          match u128Add f2.obs_per_reward_rate obs_per_reward with
                          | .error m => .abort m f2 []
                          | .ok opr =>
                            match u128Add f2.total_obs_balance attached_deposit with
                            | .error m => .abort m { f2 with obs_per_reward_rate := opr } []
                            | .ok tob =>
                              .ok account3
                                { f2 with obs_per_reward_rate := opr, total_obs_balance := tob }
                                [ .ftTransfer f2.obs_token_account_id e.current_account_id
                                    attached_deposit 1,
                                  .onTransferCall f2.obs_token_account_id
                                    e.predecessor_account_id attached_deposit ]

/-- Embedding of `Farm::unstake_my_obs`. -/
def unstake_my_obs (f : Farm) (e : Env) (amount : Nat) : Res Account :=
  if e.attached_deposit ≠ 1 then
    .abort "Requires attached deposit of exactly 1 yoctoNEAR" f []
  else
    match get_mut_account f e.predecessor_account_id e.block_timestamp with
    | .error m => .abort m f []
    | .ok (f1, account0) =>
      if account0.obs_balance < amount then
        .abort "assertion failed: account.obs_balance >= amount" f1 []
      else
        match u64Sub e.block_timestamp account0.deposit_time with
        | .error m => .abort m f1 []
        | .ok elapsed =>
          if elapsed < f1.cliff_time then
            .abort "You can unstake only after the 10 days of deposit" f1 []
          else
            match touch f1 account0 e.block_timestamp with
            | .error m => .abort m f1 []
            | .ok (f2, account1, _snap) =>
              match u128Sub account1.obs_balance amount with
              | .error m => .abort m f2 []
              | .ok ob =>
                let account2 := { account1 with
                  obs_balance := ob
                  reward_claimed := account1.reward_balance
                  reward_balance := 0 }
                match u128Sub f2.total_obs_balance amount with
                | .error m => .abort m f2 []
                | .ok tob =>
                  match u128Add f2.total_reward_claimed amount with
                  | .error m => .abort m { f2 with total_obs_balance := tob } []
                  | .ok trc1 =>
                    match u128Add trc1 account2.reward_claimed with
                    | .error m =>
                      .abort m { f2 with total_obs_balance := tob, total_reward_claimed := trc1 } []
                    | .ok trc2 =>
                      let f3 :=
                        { f2 with total_obs_balance := tob, total_reward_claimed := trc2 }
                      match u128Mul amount f3.staking_fee_rate with
                      | .error m => .abort m f3 []
                      | .ok partFee =>
                        match u128Mul partFee OBS_PER_REWARD_DENOM with
                        | .error m => .abort m f3 []
                        | .ok fee =>
                          match u128Add amount fee with
                          | .error m => .abort m f3 []
                          | .ok gross =>
                            .ok account2 f3
                              [ .ftTransfer f3.obs_token_account_id
                                  e.predecessor_account_id gross 1,
                                .ftTransfer f3.reward_token_account_id
                                  e.predecessor_account_id gross 1 ]

/-- Embedding of `Farm::register_account`: load-and-touch the record of the caller,
then persist it.  This is the only public method that calls `save_account`. -/
def register_account (f : Farm) (e : Env) : Res Unit :=
  match get_mut_account f e.predecessor_account_id e.block_timestamp with
  | .error m => .abort m f []
  | .ok (f1, account) =>
    .ok () (save_account f1 e.predecessor_account_id account) []

/-- Embedding of `Farm::get_reward_balance`: `touch` a transient copy of the
record and return its `reward_balance` (0 for an unknown account).  Note that
`touch` is run against `&mut self`, so its write to `total_reward_farmed` is a
write to the farm state. -/
def get_reward_balance (f : Farm) (account_id : String) (now : Nat) : Res Nat :=
  match (get_internal_account f account_id).2 with
  | none => .ok 0 f []
  | some account =>
    match touch f account now with
    | .error m => .abort m f []
    | .ok (f1, account1, _snap) => .ok account1.reward_balance f1 []

/-- Embedding of the public callback `Farm::on_transfer`: restricted to the
base-asset token contract; only logs. -/
def on_transfer (f : Farm) (e : Env) (_sender_id : String) (_amount : Nat)
    (_msg : String) : Res Unit :=
  if e.predecessor_account_id ≠ f.obs_token_account_id then
    .abort "Only supports the one fungible token contract" f []
  else
    .ok () f []

/-- Embedding of `ft_on_transfer` (the `FungibleTokenReceiver` impl): restricted
to the base-asset token contract; returns `some 0` on the "Stake" tag (a
zero-value receipt) and otherwise schedules the `on_transfer` self-callback. -/
def ft_on_transfer (f : Farm) (e : Env) (_sender_id : String) (amount : Nat)
    (msg : String) : Res (Option Nat) :=
  if e.predecessor_account_id ≠ f.obs_token_account_id then
    .abort "Only supports the one fungible token contract" f []
  else if msg = "Stake" then
    .ok (some 0) f []
  else
    .ok none f
      [ .onTransferCall f.obs_token_account_id e.predecessor_account_id amount ]

/-- Value carried by a normal return, or the fallback on a panic. -/
def Res.getD {α : Type} : Res α → α → α
  | .ok v _ _, _ => v
  | .abort _ _ _, d => d

/-- Account fixture: one base-asset unit staked at time 0. -/
def aliceStart : Account :=
  { obs_balance := 1
    reward_balance := 0
    reward_claimed := 0
    last_obs_per_reward_rate := 0
    deposit_time := 0 }

/-- Account fixture for the §8 scenario: 1000 units staked at time 0. -/
def c8Account : Account :=
  { obs_balance := 1000
    reward_balance := 0
    reward_claimed := 0
    last_obs_per_reward_rate := 0
    deposit_time := 0 }

/-- Farm fixture with the configuration of the §8 scenario (`reward_rate =
1800`, `reward_interval = 31536000`, `cliff_time = 864000`,
`staking_fee_rate = 0`) and one ledger entry for "alice". -/
def scenarioFarm : Farm :=
  { obs_token_account_id := "obs.token"
    reward_token_account_id := "rwd.token"
    accounts := fun k => if k = "alice" then some aliceStart else none
    reward_rate := 1800
    obs_per_reward_rate := 0
    staking_fee_rate := 0
    cliff_time := 864000
    reward_interval := 31536000
    total_obs_balance := 1
    total_reward_farmed := 0
    total_reward_claimed := 0 }

/-- Farm fixture with the §8 scenario configuration and an empty ledger. -/
def emptyScenarioFarm : Farm :=
  { scenarioFarm with accounts := fun _ => none, total_obs_balance := 0 }

/-- Environment fixture: "alice" calls with 1 yoctoNEAR at time 31536000. -/
def aliceEnvLate : Env :=
  { predecessor_account_id := "alice"
    current_account_id := "farm.near"
    block_timestamp := 31536000
    attached_deposit := 1 }

/-- Environment fixture: call at time 864001, just past the cliff. -/
def aliceEnvPastCliff : Env :=
  { aliceEnvLate with block_timestamp := 864001 }

/-- Environment fixture: call at time 100, well before the cliff. -/
def aliceEnvEarly : Env :=
  { aliceEnvLate with block_timestamp := 100 }

/-- Environment fixture: call at time 0. -/
def aliceEnvZero : Env :=
  { aliceEnvLate with block_timestamp := 0 }

/-- Environment fixture: "alice" calls without the 1-yoctoNEAR payment. -/
def aliceEnvNoDeposit : Env :=
  { aliceEnvLate with attached_deposit := 0 }

/-- Environment fixture: a caller other than the base-asset token contract. -/
def bobEnv : Env :=
  { aliceEnvLate with predecessor_account_id := "bob" }

/-! ## Inversion and evaluation lemmas for the checked arithmetic -/

theorem u128Add_eq_ok {a b : Nat} (h : a + b < U128_LIMIT) :
    u128Add a b = .ok (a + b) := by
  unfold u128Add; exact if_pos h

theorem u128Sub_eq_ok {a b : Nat} (h : b ≤ a) :
    u128Sub a b = .ok (a - b) := by
  unfold u128Sub; exact if_pos h

theorem u128Mul_eq_ok {a b : Nat} (h : a * b < U128_LIMIT) :
    u128Mul a b = .ok (a * b) := by
  unfold u128Mul; exact if_pos h

theorem u64Sub_eq_ok {a b : Nat} (h : b ≤ a) :
    u64Sub a b = .ok (a - b) := by
  unfold u64Sub; exact if_pos h

theorem u256Mul_eq_ok {a b : Nat} (h : a * b < U256_LIMIT) :
    u256Mul a b = .ok (a * b) := by
  unfold u256Mul; exact if_pos h

theorem u256Div_eq_ok {a b : Nat} (h : b ≠ 0) :
    u256Div a b = .ok (a / b) := by
  unfold u256Div; exact if_neg h

theorem u256AsU128_eq_ok {a : Nat} (h : a < U128_LIMIT) :
    u256AsU128 a = .ok a := by
  unfold u256AsU128; exact if_pos h

theorem u128Add_ok {a b c : Nat} (h : u128Add a b = .ok c) :
    a + b < U128_LIMIT ∧ c = a + b := by
  unfold u128Add at h
  split at h
  · exact ⟨by assumption, by cases h; rfl⟩
  · exact Except.noConfusion h

theorem u128Sub_ok {a b c : Nat} (h : u128Sub a b = .ok c) :
    b ≤ a ∧ c = a - b := by
  unfold u128Sub at h
  split at h
  · exact ⟨by assumption, by cases h; rfl⟩
  · exact Except.noConfusion h

theorem u128Mul_ok {a b c : Nat} (h : u128Mul a b = .ok c) :
    a * b < U128_LIMIT ∧ c = a * b := by
  unfold u128Mul at h
  split at h
  · exact ⟨by assumption, by cases h; rfl⟩
  · exact Except.noConfusion h

theorem u64Sub_ok {a b c : Nat} (h : u64Sub a b = .ok c) :
    b ≤ a ∧ c = a - b := by
  unfold u64Sub at h
  split at h
  · exact ⟨by assumption, by cases h; rfl⟩
  · exact Except.noConfusion h

theorem u256Mul_ok {a b c : Nat} (h : u256Mul a b = .ok c) :
    a * b < U256_LIMIT ∧ c = a * b := by
  unfold u256Mul at h
  split at h
  · exact ⟨by assumption, by cases h; rfl⟩
  · exact Except.noConfusion h

theorem u256Div_ok {a b c : Nat} (h : u256Div a b = .ok c) :
    b ≠ 0 ∧ c = a / b := by
  unfold u256Div at h
  split at h
  · exact Except.noConfusion h
  · exact ⟨by assumption, by cases h; rfl⟩

theorem u256AsU128_ok {a c : Nat} (h : u256AsU128 a = .ok c) :
    a < U128_LIMIT ∧ c = a := by
  unfold u256AsU128 at h
  split at h
  · exact ⟨by assumption, by cases h; rfl⟩
  · exact Except.noConfusion h

/-! ## Characterization of `touch` -/

theorem touch_eq_above (f : Farm) (a : Account) (now : Nat)
    (hdt : a.deposit_time ≤ now)
    (h1 : a.obs_balance * (now - a.deposit_time) < U256_LIMIT)
    (h2 : a.obs_balance * (now - a.deposit_time) * f.reward_rate < U256_LIMIT)
    (hd : f.reward_interval ≠ 0)
    (h3 : earned f a.obs_balance (now - a.deposit_time) < U128_LIMIT)
    (hcliff : f.cliff_time < now - a.deposit_time)
    (h4 : a.reward_balance + earned f a.obs_balance (now - a.deposit_time) < U128_LIMIT)
    (h5 : f.total_reward_farmed + earned f a.obs_balance (now - a.deposit_time) < U128_LIMIT) :
    touch f a now = .ok
      ({ f with total_reward_farmed :=
          f.total_reward_farmed + earned f a.obs_balance (now - a.deposit_time) },
       { a with reward_balance :=
          a.reward_balance + earned f a.obs_balance (now - a.deposit_time) },
       a.last_obs_per_reward_rate) := by
  simp only [earned] at h3 h4 h5 ⊢
  have hq : a.obs_balance * (now - a.deposit_time) * f.reward_rate / f.reward_interval *
      OBS_PER_REWARD_DENOM < U256_LIMIT := by
    have hle : U128_LIMIT ≤ U256_LIMIT := by norm_num [U128_LIMIT, U256_LIMIT]
    omega
  unfold touch
  rw [u64Sub_eq_ok hdt]
  simp only [u256Mul_eq_ok h1, u256Mul_eq_ok h2,
    u256Div_eq_ok (a := a.obs_balance * (now - a.deposit_time) * f.reward_rate) hd,
    u256Mul_eq_ok hq, u256AsU128_eq_ok h3, hcliff, if_true,
    u128Add_eq_ok h4, u128Add_eq_ok h5]

theorem touch_eq_below (f : Farm) (a : Account) (now : Nat)
    (hdt : a.deposit_time ≤ now)
    (h1 : a.obs_balance * (now - a.deposit_time) < U256_LIMIT)
    (h2 : a.obs_balance * (now - a.deposit_time) * f.reward_rate < U256_LIMIT)
    (hd : f.reward_interval ≠ 0)
    (h3 : earned f a.obs_balance (now - a.deposit_time) < U128_LIMIT)
    (hcliff : now - a.deposit_time ≤ f.cliff_time) :
    touch f a now = .ok (f, a, a.last_obs_per_reward_rate) := by
  simp only [earned] at h3
  have hq : a.obs_balance * (now - a.deposit_time) * f.reward_rate / f.reward_interval *
      OBS_PER_REWARD_DENOM < U256_LIMIT := by
    have hle : U128_LIMIT ≤ U256_LIMIT := by norm_num [U128_LIMIT, U256_LIMIT]
    omega
  have hnot : ¬ f.cliff_time < now - a.deposit_time := by omega
  unfold touch
  rw [u64Sub_eq_ok hdt]
  simp only [u256Mul_eq_ok h1, u256Mul_eq_ok h2,
    u256Div_eq_ok (a := a.obs_balance * (now - a.deposit_time) * f.reward_rate) hd,
    u256Mul_eq_ok hq, u256AsU128_eq_ok h3, hnot, if_false]

theorem touch_ok_inv {f : Farm} {a : Account} {now : Nat} {f' : Farm} {a' : Account}
    {snap : Nat} (h : touch f a now = .ok (f', a', snap)) :
    a.deposit_time ≤ now ∧
    snap = a.last_obs_per_reward_rate ∧
    a'.obs_balance = a.obs_balance ∧
    a'.reward_claimed = a.reward_claimed ∧
    a'.last_obs_per_reward_rate = a.last_obs_per_reward_rate ∧
    a'.deposit_time = a.deposit_time ∧
    f' = { f with total_reward_farmed := f'.total_reward_farmed } ∧
    (f.cliff_time < now - a.deposit_time →
      a'.reward_balance = a.reward_balance + earned f a.obs_balance (now - a.deposit_time) ∧
      f'.total_reward_farmed =
        f.total_reward_farmed + earned f a.obs_balance (now - a.deposit_time)) ∧
    (now - a.deposit_time ≤ f.cliff_time → a' = a ∧ f' = f) := by
  unfold touch at h
  split at h
  · exact Except.noConfusion h
  · rename_i time_diff hsub
    obtain ⟨hle, htd⟩ := u64Sub_ok hsub
    subst htd
    split at h
    · exact Except.noConfusion h
    · rename_i p1 hm1
      obtain ⟨-, hp1⟩ := u256Mul_ok hm1
      subst hp1
      split at h
      · exact Except.noConfusion h
      · rename_i p2 hm2
        obtain ⟨-, hp2⟩ := u256Mul_ok hm2
        subst hp2
        split at h
        · exact Except.noConfusion h
        · rename_i q hdv
          obtain ⟨hd0, hq⟩ := u256Div_ok hdv
          subst hq
          split at h
          · exact Except.noConfusion h
          · rename_i scaled hm3
            obtain ⟨-, hsc⟩ := u256Mul_ok hm3
            subst hsc
            split at h
            · exact Except.noConfusion h
            · rename_i eb hcast
              obtain ⟨heb128, heb⟩ := u256AsU128_ok hcast
              subst heb
              split at h
              · rename_i hcliff
                split at h
                · exact Except.noConfusion h
                · rename_i rb hadd1
                  obtain ⟨-, hrb⟩ := u128Add_ok hadd1
                  subst hrb
                  split at h
                  · exact Except.noConfusion h
                  · rename_i trf hadd2
                    obtain ⟨-, htrf⟩ := u128Add_ok hadd2
                    subst htrf
                    injection h with h
                    injection h with hf h
                    injection h with ha hs
                    subst hf; subst ha; subst hs
                    refine ⟨hle, rfl, rfl, rfl, rfl, rfl, rfl, ?_, ?_⟩
                    · intro _
                      exact ⟨by simp [earned], by simp [earned]⟩
                    · intro hle2
                      exact absurd hcliff (by omega)
              · rename_i hcliff
                injection h with h
                injection h with hf h
                injection h with ha hs
                subst hf; subst ha; subst hs
                refine ⟨hle, rfl, rfl, rfl, rfl, rfl, ?_, ?_, ?_⟩
                · rfl
                · intro hc; exact absurd hc hcliff
                · intro _; exact ⟨rfl, rfl⟩

/-! ## Helpers about `get_mut_account` and farm frames -/

theorem get_mut_account_ok {f : Farm} {id : String} {now : Nat} {f1 : Farm} {a1 : Account}
    (h : get_mut_account f id now = .ok (f1, a1)) :
    touch f (loaded_account f id) now =
      .ok (f1, a1, (loaded_account f id).last_obs_per_reward_rate) := by
  unfold get_mut_account at h
  split at h
  · exact Except.noConfusion h
  · rename_i f1' a1' snap ht
    injection h with h
    injection h with hf ha
    subst hf; subst ha
    obtain ⟨-, hsnap, -⟩ := touch_ok_inv ht
    rw [hsnap] at ht
    exact ht

theorem get_mut_account_eq {f : Farm} {id : String} {now : Nat} {f1 : Farm} {a1 : Account}
    {snap : Nat} (h : touch f (loaded_account f id) now = .ok (f1, a1, snap)) :
    get_mut_account f id now = .ok (f1, a1) := by
  unfold get_mut_account
  rw [h]

theorem farm_frame_fields {f f' : Farm}
    (h : f' = { f with total_reward_farmed := f'.total_reward_farmed }) :
    f'.obs_token_account_id = f.obs_token_account_id ∧
    f'.reward_token_account_id = f.reward_token_account_id ∧
    f'.accounts = f.accounts ∧
    f'.reward_rate = f.reward_rate ∧
    f'.obs_per_reward_rate = f.obs_per_reward_rate ∧
    f'.staking_fee_rate = f.staking_fee_rate ∧
    f'.cliff_time = f.cliff_time ∧
    f'.reward_interval = f.reward_interval ∧
    f'.total_obs_balance = f.total_obs_balance ∧
    f'.total_reward_claimed = f.total_reward_claimed := by
  refine ⟨?_, ?_, ?_, ?_, ?_, ?_, ?_, ?_, ?_, ?_⟩ <;> rw [h]

theorem earned_congr {f f' : Farm} (hr : f'.reward_rate = f.reward_rate)
    (hi : f'.reward_interval = f.reward_interval) (obs td : Nat) :
    earned f' obs td = earned f obs td := by
  simp [earned, hr, hi]

/-! ## Inversion lemmas for `stake_my_obs` -/

theorem stake_ok_inv {f : Farm} {e : Env} {amount : Nat} {a' : Account} {f' : Farm}
    {acts : List PromiseAct} (h : stake_my_obs f e amount = .ok a' f' acts) :
    e.attached_deposit = 1 ∧ 0 < amount ∧
    a'.obs_balance = amount + amount * f.staking_fee_rate * OBS_PER_REWARD_DENOM ∧
    a'.reward_claimed = 0 ∧
    a'.deposit_time = e.block_timestamp ∧
    (f.cliff_time <
        e.block_timestamp - (loaded_account f e.predecessor_account_id).deposit_time →
      a'.reward_balance =
        earned f (amount + amount * f.staking_fee_rate * OBS_PER_REWARD_DENOM)
          (e.block_timestamp - (loaded_account f e.predecessor_account_id).deposit_time)) ∧
    (e.block_timestamp - (loaded_account f e.predecessor_account_id).deposit_time ≤
        f.cliff_time →
      a'.reward_balance = 0) ∧
    f'.accounts = f.accounts ∧
    f'.total_obs_balance = f.total_obs_balance +
      (amount + amount * f.staking_fee_rate * OBS_PER_REWARD_DENOM) ∧
    f.cliff_time ≤ e.block_timestamp := by
  simp only [stake_my_obs] at h
  split at h
  · exact Res.noConfusion h
  · rename_i hyocto
    split at h
    · exact Res.noConfusion h
    · rename_i hamt
      split at h
      · exact Res.noConfusion h
      · rename_i partFee h1
        obtain ⟨-, hv1⟩ := u128Mul_ok h1
        subst hv1
        split at h
        · exact Res.noConfusion h
        · rename_i fee h2
          obtain ⟨-, hv2⟩ := u128Mul_ok h2
          subst hv2
          split at h
          · exact Res.noConfusion h
          · rename_i gross h3
            obtain ⟨-, hv3⟩ := u128Add_ok h3
            subst hv3
            split at h
            · exact Res.noConfusion h
            · rename_i f1 account0 hg
              have ht1 := touch_ok_inv (get_mut_account_ok hg)
              obtain ⟨hdt0, -, hobs0, -, -, hdt0eq, hfr1, -, -⟩ := ht1
              obtain ⟨-, -, hacc1, hrate1, -, -, hcliff1, hint1, htob1, -⟩ :=
                farm_frame_fields hfr1
              split at h
              · exact Res.noConfusion h
              · rename_i f2 account2 snap ht2
                have ht2i := touch_ok_inv ht2
                obtain ⟨-, -, hobs2, hrc2, -, hdt2, hfr2, habove2, hbelow2⟩ := ht2i
                obtain ⟨-, -, hacc2, -, -, -, hcliff2, -, htob2, -⟩ :=
                  farm_frame_fields hfr2
                split at h
                · exact Res.noConfusion h
                · rename_i time_diff hs
                  split at h
                  · exact Res.noConfusion h
                  · rename_i q1 hq1
                    split at h
                    · exact Res.noConfusion h
                    · rename_i q2 hq2
                      split at h
                      · exact Res.noConfusion h
                      · rename_i q3 hq3
                        split at h
                        · exact Res.noConfusion h
                        · rename_i q4 hq4
                          split at h
                          · exact Res.noConfusion h
                          · rename_i obs_per_reward hcast
                            split at h
                            · exact Res.noConfusion h
                            · rename_i opr hopr
                              split at h
                              · exact Res.noConfusion h
                              · rename_i tob htob
                                obtain ⟨-, htobv⟩ := u128Add_ok htob
                                subst htobv
                                injection h with hval hfarm hacts
                                subst hval; subst hfarm; subst hacts
                                refine ⟨by omega, by omega, ?_, ?_, rfl, ?_, ?_, ?_, ?_,
                                  by have := (u64Sub_ok hs).1; omega⟩
                                · simpa using hobs2
                                · simpa using hrc2
                                · intro hc
                                  have hc1 : f1.cliff_time <
                                      e.block_timestamp -
                                        (loaded_account f e.predecessor_account_id).deposit_time := by
                                    omega
                                  have hdt1 :
                                      ({ account0 with
                                          obs_balance :=
                                            amount + amount * f.staking_fee_rate *
                                              OBS_PER_REWARD_DENOM,
                                          reward_balance := 0,
                                          reward_claimed := 0 } : Account).deposit_time =
                                        (loaded_account f e.predecessor_account_id).deposit_time := by
                                    simpa using hdt0eq
                                  rw [hdt1] at habove2
                                  have := habove2 hc1
                                  simp only at this
                                  rw [this.1]
                                  simp [earned_congr hrate1 hint1]
                                · intro hc
                                  have hc1 : e.block_timestamp -
                                      ({ account0 with
                                          obs_balance :=
                                            amount + amount * f.staking_fee_rate *
                                              OBS_PER_REWARD_DENOM,
                                          reward_balance := 0,
                                          reward_claimed := 0 } : Account).deposit_time ≤
                                      f1.cliff_time := by
                                    simp only [hdt0eq]
                                    omega
                                  have := (hbelow2 hc1).1
                                  rw [this]
                                · simpa using hacc2.trans hacc1
                                · simp only
                                  omega

theorem stake_abort_inv {f : Farm} {e : Env} {amount : Nat} {m : String} {g : Farm}
    {acts : List PromiseAct} (h : stake_my_obs f e amount = .abort m g acts) :
    acts = [] ∧ g.accounts = f.accounts ∧ g.cliff_time = f.cliff_time ∧
    g.total_obs_balance = f.total_obs_balance ∧
    (g.obs_per_reward_rate = f.obs_per_reward_rate ∨ f.cliff_time ≤ e.block_timestamp) := by
  simp only [stake_my_obs] at h
  split at h
  · injection h with hm hfarm hacts
    subst hfarm; subst hacts
    exact ⟨rfl, rfl, rfl, rfl, Or.inl rfl⟩
  · split at h
    · injection h with hm hfarm hacts
      subst hfarm; subst hacts
      exact ⟨rfl, rfl, rfl, rfl, Or.inl rfl⟩
    · split at h
      · injection h with hm hfarm hacts
        subst hfarm; subst hacts
        exact ⟨rfl, rfl, rfl, rfl, Or.inl rfl⟩
      · rename_i partFee h1
        split at h
        · injection h with hm hfarm hacts
          subst hfarm; subst hacts
          exact ⟨rfl, rfl, rfl, rfl, Or.inl rfl⟩
        · rename_i fee h2
          split at h
          · injection h with hm hfarm hacts
            subst hfarm; subst hacts
            exact ⟨rfl, rfl, rfl, rfl, Or.inl rfl⟩
          · rename_i gross h3
            split at h
            · injection h with hm hfarm hacts
              subst hfarm; subst hacts
              exact ⟨rfl, rfl, rfl, rfl, Or.inl rfl⟩
            · rename_i f1 account0 hg
              obtain ⟨-, -, hacc1, -, hopr1, -, hcliff1, -, htob1, -⟩ :=
                farm_frame_fields
                  ((touch_ok_inv (get_mut_account_ok hg)).2.2.2.2.2.2.1)
              split at h
              · injection h with hm hfarm hacts
                subst hfarm; subst hacts
                exact ⟨rfl, hacc1, hcliff1, htob1, Or.inl hopr1⟩
              · rename_i f2 account2 snap ht2
                obtain ⟨-, -, hacc2, -, hopr2, -, hcliff2, -, htob2, -⟩ :=
                  farm_frame_fields ((touch_ok_inv ht2).2.2.2.2.2.2.1)
                have hacc := hacc2.trans hacc1
                have hcliff := hcliff2.trans hcliff1
                have htob := htob2.trans htob1
                have hopr := hopr2.trans hopr1
                split at h
                · injection h with hm hfarm hacts
                  subst hfarm; subst hacts
                  exact ⟨rfl, hacc, hcliff, htob, Or.inl hopr⟩
                · rename_i time_diff hs
                  have hreach : f.cliff_time ≤ e.block_timestamp := by
                    have := (u64Sub_ok hs).1
                    omega
                  split at h
                  · injection h with hm hfarm hacts
                    subst hfarm; subst hacts
                    exact ⟨rfl, hacc, hcliff, htob, Or.inr hreach⟩
                  · rename_i q1 hq1
                    split at h
                    · injection h with hm hfarm hacts
                      subst hfarm; subst hacts
                      exact ⟨rfl, hacc, hcliff, htob, Or.inr hreach⟩
                    · rename_i q2 hq2
                      split at h
                      · injection h with hm hfarm hacts
                        subst hfarm; subst hacts
                        exact ⟨rfl, hacc, hcliff, htob, Or.inr hreach⟩
                      · rename_i q3 hq3
                        split at h
                        · injection h with hm hfarm hacts
                          subst hfarm; subst hacts
                          exact ⟨rfl, hacc, hcliff, htob, Or.inr hreach⟩
                        · rename_i q4 hq4
                          split at h
                          · injection h with hm hfarm hacts
                            subst hfarm; subst hacts
                            exact ⟨rfl, hacc, hcliff, htob, Or.inr hreach⟩
                          · rename_i obs_per_reward hcast
                            split at h
                            · injection h with hm hfarm hacts
                              subst hfarm; subst hacts
                              exact ⟨rfl, hacc, hcliff, htob, Or.inr hreach⟩
                            · rename_i opr hopr0
                              split at h
                              · injection h with hm hfarm hacts
                                subst hfarm; subst hacts
                                exact ⟨rfl, hacc, hcliff, htob, Or.inr hreach⟩
                              · exact Res.noConfusion h

/-! ## Inversion lemmas for `unstake_my_obs` -/

theorem unstake_ok_inv {f : Farm} {e : Env} {amount : Nat} {a' : Account} {f' : Farm}
    {acts : List PromiseAct} (h : unstake_my_obs f e amount = .ok a' f' acts) :
    e.attached_deposit = 1 ∧
    amount ≤ (loaded_account f e.predecessor_account_id).obs_balance ∧
    (loaded_account f e.predecessor_account_id).deposit_time ≤ e.block_timestamp ∧
    f.cliff_time ≤
      e.block_timestamp - (loaded_account f e.predecessor_account_id).deposit_time ∧
    f'.accounts = f.accounts := by
  simp only [unstake_my_obs] at h
  split at h
  · exact Res.noConfusion h
  · rename_i hyocto
    split at h
    · exact Res.noConfusion h
    · rename_i f1 account0 hg
      obtain ⟨hdt0, -, hobs0, -, -, hdt0eq, hfr1, -, -⟩ :=
        touch_ok_inv (get_mut_account_ok hg)
      obtain ⟨-, -, hacc1, -, -, -, hcliff1, -, -, -⟩ := farm_frame_fields hfr1
      split at h
      · exact Res.noConfusion h
      · rename_i hbal
        split at h
        · exact Res.noConfusion h
        · rename_i elapsed hs
          obtain ⟨-, helv⟩ := u64Sub_ok hs
          subst helv
          split at h
          · exact Res.noConfusion h
          · rename_i hcl
            split at h
            · exact Res.noConfusion h
            · rename_i f2 account1 snap ht2
              obtain ⟨-, -, -, -, -, -, hfr2, -, -⟩ := touch_ok_inv ht2
              obtain ⟨-, -, hacc2, -, -, -, -, -, -, -⟩ := farm_frame_fields hfr2
              split at h
              · exact Res.noConfusion h
              · rename_i ob hsub1
                split at h
                · exact Res.noConfusion h
                · rename_i tob hsub2
                  split at h
                  · exact Res.noConfusion h
                  · rename_i trc1 hadd1
                    split at h
                    · exact Res.noConfusion h
                    · rename_i trc2 hadd2
                      split at h
                      · exact Res.noConfusion h
                      · rename_i partFee hm1
                        split at h
                        · exact Res.noConfusion h
                        · rename_i fee hm2
                          split at h
                          · exact Res.noConfusion h
                          · rename_i gross hm3
                            injection h with hval hfarm hacts
                            subst hval; subst hfarm; subst hacts
                            refine ⟨by omega, ?_, hdt0, ?_, ?_⟩
                            · rw [← hobs0]
                              omega
                            · rw [← hdt0eq]
                              omega
                            · simpa using hacc2.trans hacc1

theorem unstake_abort_inv {f : Farm} {e : Env} {amount : Nat} {m : String} {g : Farm}
    {acts : List PromiseAct} (h : unstake_my_obs f e amount = .abort m g acts) :
    acts = [] ∧ g.accounts = f.accounts := by
  simp only [unstake_my_obs] at h
  split at h
  · injection h with hm hfarm hacts
    subst hfarm; subst hacts
    exact ⟨rfl, rfl⟩
  · split at h
    · injection h with hm hfarm hacts
      subst hfarm; subst hacts
      exact ⟨rfl, rfl⟩
    · rename_i f1 account0 hg
      obtain ⟨-, -, hacc1, -, -, -, -, -, -, -⟩ :=
        farm_frame_fields ((touch_ok_inv (get_mut_account_ok hg)).2.2.2.2.2.2.1)
      split at h
      · injection h with hm hfarm hacts
        subst hfarm; subst hacts
        exact ⟨rfl, hacc1⟩
      · split at h
        · injection h with hm hfarm hacts
          subst hfarm; subst hacts
          exact ⟨rfl, hacc1⟩
        · rename_i elapsed hs
          split at h
          · injection h with hm hfarm hacts
            subst hfarm; subst hacts
            exact ⟨rfl, hacc1⟩
          · split at h
            · injection h with hm hfarm hacts
              subst hfarm; subst hacts
              exact ⟨rfl, hacc1⟩
            · rename_i f2 account1 snap ht2
              obtain ⟨-, -, hacc2, -, -, -, -, -, -, -⟩ :=
                farm_frame_fields ((touch_ok_inv ht2).2.2.2.2.2.2.1)
              have hacc := hacc2.trans hacc1
              split at h
              · injection h with hm hfarm hacts
                subst hfarm; subst hacts
                exact ⟨rfl, hacc⟩
              · split at h
                · injection h with hm hfarm hacts
                  subst hfarm; subst hacts
                  exact ⟨rfl, hacc⟩
                · split at h
                  · injection h with hm hfarm hacts
                    subst hfarm; subst hacts
                    exact ⟨rfl, hacc⟩
                  · split at h
                    · injection h with hm hfarm hacts
                      subst hfarm; subst hacts
                      exact ⟨rfl, hacc⟩
                    · split at h
                      · injection h with hm hfarm hacts
                        subst hfarm; subst hacts
                        exact ⟨rfl, hacc⟩
                      · split at h
                        · injection h with hm hfarm hacts
                          subst hfarm; subst hacts
                          exact ⟨rfl, hacc⟩
                        · split at h
                          · injection h with hm hfarm hacts
                            subst hfarm; subst hacts
                            exact ⟨rfl, hacc⟩
                          · exact Res.noConfusion h

/-! ## Behaviour of `unstake_my_obs` on precondition violations -/

theorem unstake_insufficient_inv {f : Farm} {e : Env} {amount : Nat} {m : String}
    {g : Farm} {acts : List PromiseAct} (h : unstake_my_obs f e amount = .abort m g acts)
    (hbal : (loaded_account f e.predecessor_account_id).obs_balance < amount) :
    acts = [] ∧ { g with total_reward_farmed := f.total_reward_farmed } = f := by
  simp only [unstake_my_obs] at h
  split at h
  · injection h with hm hfarm hacts
    subst hfarm; subst hacts
    exact ⟨rfl, rfl⟩
  · split at h
    · injection h with hm hfarm hacts
      subst hfarm; subst hacts
      exact ⟨rfl, rfl⟩
    · rename_i f1 account0 hg
      obtain ⟨-, -, hobs0, -, -, -, hfr1, -, -⟩ := touch_ok_inv (get_mut_account_ok hg)
      split at h
      · injection h with hm hfarm hacts
        subst hfarm; subst hacts
        exact ⟨rfl, by rw [hfr1]⟩
      · rename_i hb
        exact absurd hbal (by omega)

theorem unstake_locked_inv {f : Farm} {e : Env} {amount : Nat} {m : String}
    {g : Farm} {acts : List PromiseAct} (h : unstake_my_obs f e amount = .abort m g acts)
    (hbal : amount ≤ (loaded_account f e.predecessor_account_id).obs_balance)
    (hcl : e.block_timestamp - (loaded_account f e.predecessor_account_id).deposit_time <
      f.cliff_time) :
    acts = [] ∧ g = f := by
  simp only [unstake_my_obs] at h
  split at h
  · injection h with hm hfarm hacts
    subst hfarm; subst hacts
    exact ⟨rfl, rfl⟩
  · split at h
    · injection h with hm hfarm hacts
      subst hfarm; subst hacts
      exact ⟨rfl, rfl⟩
    · rename_i f1 account0 hg
      obtain ⟨hdt0, -, hobs0, -, -, hdt0eq, hfr1, -, hbelow1⟩ :=
        touch_ok_inv (get_mut_account_ok hg)
      obtain ⟨ha0, hf1⟩ := hbelow1 (le_of_lt hcl)
      split at h
      · rename_i hb
        exact absurd hbal (by omega)
      · split at h
        · injection h with hm hfarm hacts
          subst hfarm; subst hacts
          exact ⟨rfl, hf1⟩
        · rename_i elapsed hs
          obtain ⟨-, helv⟩ := u64Sub_ok hs
          subst helv
          split at h
          · injection h with hm hfarm hacts
            subst hfarm; subst hacts
            exact ⟨rfl, hf1⟩
          · rename_i hnc
            have hcf : f1.cliff_time = f.cliff_time := by rw [hf1]
            exact absurd hcl (by omega)

theorem unstake_insufficient (f : Farm) (e : Env) (amount : Nat)
    (hbal : (loaded_account f e.predecessor_account_id).obs_balance < amount) :
    (unstake_my_obs f e amount).isAbort = true ∧
    (unstake_my_obs f e amount).actions = [] ∧
    { (unstake_my_obs f e amount).farm with
        total_reward_farmed := f.total_reward_farmed } = f := by
  cases hr : unstake_my_obs f e amount with
  | ok a' f' acts => exact absurd (unstake_ok_inv hr).2.1 (by omega)
  | abort m g acts =>
    obtain ⟨hacts, hfr⟩ := unstake_insufficient_inv hr hbal
    subst hacts
    exact ⟨rfl, rfl, hfr⟩

theorem unstake_locked (f : Farm) (e : Env) (amount : Nat)
    (hbal : amount ≤ (loaded_account f e.predecessor_account_id).obs_balance)
    (hcl : e.block_timestamp - (loaded_account f e.predecessor_account_id).deposit_time <
      f.cliff_time) :
    (unstake_my_obs f e amount).isAbort = true ∧
    (unstake_my_obs f e amount).actions = [] ∧
    (unstake_my_obs f e amount).farm = f := by
  cases hr : unstake_my_obs f e amount with
  | ok a' f' acts => exact absurd (unstake_ok_inv hr).2.2.2.1 (by omega)
  | abort m g acts =>
    obtain ⟨hacts, hfr⟩ := unstake_locked_inv hr hbal hcl
    subst hacts
    exact ⟨rfl, rfl, hfr⟩

/-! ## Theorems for the verified claims -/

/-- C1: counter-evidence for the persistence conjunct.  With the §8 scenario
configuration (zero staking fee) and an empty ledger, "alice" successfully
stakes 1000 at time 864001: the local record carries `staked_balance = gross =
1000 = amount + amount * staking_fee_rate * SCALE` and `total_obs_balance`
increases by exactly `gross`, but `stake_my_obs` never calls `save_account`,
so the ledger still has no entry for "alice" — the account is not persisted. -/
theorem stake_my_obs_does_not_persist :
    (stake_my_obs emptyScenarioFarm aliceEnvPastCliff 1000).isOk = true ∧
    ((stake_my_obs emptyScenarioFarm aliceEnvPastCliff 1000).getD
        (default_account emptyScenarioFarm)).obs_balance =
      1000 + 1000 * emptyScenarioFarm.staking_fee_rate * OBS_PER_REWARD_DENOM ∧
    (stake_my_obs emptyScenarioFarm aliceEnvPastCliff 1000).farm.total_obs_balance = 1000 ∧
    (stake_my_obs emptyScenarioFarm aliceEnvPastCliff 1000).farm.accounts "alice" = none := by
  refine ⟨rfl, rfl, rfl, rfl⟩

/-- C2: counterexample.  Immediately after the successful `stake_my_obs` of
1000 at time 864001 (scenario configuration, fresh account), the record of the caller has `reward_balance = 49315 * 10^18 ≠ 0`: `stake` zeroes
`reward_balance` but then runs `touch` against the stale `deposit_time = 0`
before resetting it, which re-credits reward on the new gross balance. -/
theorem stake_reward_balance_nonzero_cex :
    (stake_my_obs emptyScenarioFarm aliceEnvPastCliff 1000).isOk = true ∧
    ((stake_my_obs emptyScenarioFarm aliceEnvPastCliff 1000).getD
        (default_account emptyScenarioFarm)).reward_balance =
      49315 * OBS_PER_REWARD_DENOM ∧
    49315 * OBS_PER_REWARD_DENOM ≠ 0 := by
  refine ⟨rfl, rfl, by decide⟩

/-- C2 (amended): after a successful `stake_my_obs`, the local
(never persisted) record of the caller has `reward_claimed = 0` and `deposit_time = now`;
its `reward_balance` is 0 when `now - old_deposit_time ≤ cliff_time`, but
equals `earned(gross, now - old_deposit_time)` when `now - old_deposit_time >
cliff_time`, because `stake` runs `touch` after zeroing `reward_balance` and
before resetting `deposit_time`. -/
theorem stake_account_fields_amended (f : Farm) (e : Env) (amount : Nat)
    (a' : Account) (f' : Farm) (acts : List PromiseAct)
    (h : stake_my_obs f e amount = .ok a' f' acts) :
    a'.reward_claimed = 0 ∧ a'.deposit_time = e.block_timestamp ∧
    (e.block_timestamp - (loaded_account f e.predecessor_account_id).deposit_time ≤
        f.cliff_time → a'.reward_balance = 0) ∧
    (f.cliff_time <
        e.block_timestamp - (loaded_account f e.predecessor_account_id).deposit_time →
      a'.reward_balance =
        earned f (amount + amount * f.staking_fee_rate * OBS_PER_REWARD_DENOM)
          (e.block_timestamp - (loaded_account f e.predecessor_account_id).deposit_time)) := by
  obtain ⟨-, -, -, hrc, hdt, habove, hbelow, -, -, -⟩ := stake_ok_inv h
  exact ⟨hrc, hdt, hbelow, habove⟩

/-- Witness for the amended C2 at the concrete scenario stake. -/
theorem stake_account_fields_amended_witness :
    ((stake_my_obs emptyScenarioFarm aliceEnvPastCliff 1000).getD
        (default_account emptyScenarioFarm)).reward_claimed = 0 ∧
    ((stake_my_obs emptyScenarioFarm aliceEnvPastCliff 1000).getD
        (default_account emptyScenarioFarm)).deposit_time = 864001 := by
  have h : stake_my_obs emptyScenarioFarm aliceEnvPastCliff 1000 =
      .ok ((stake_my_obs emptyScenarioFarm aliceEnvPastCliff 1000).getD
            (default_account emptyScenarioFarm))
          (stake_my_obs emptyScenarioFarm aliceEnvPastCliff 1000).farm
          (stake_my_obs emptyScenarioFarm aliceEnvPastCliff 1000).actions := rfl
  have hres := stake_account_fields_amended _ _ _ _ _ _ h
  exact ⟨hres.1, hres.2.1⟩

/-- C3: the persisted ledger is left unchanged by `stake_my_obs` and by
`unstake_my_obs`, whether they return or panic; `register_account` is the
operation that persists (it stores the loaded-and-touched record through
`save_account`). -/
theorem ledger_writes_only_in_register (f : Farm) (e : Env) (amount : Nat) :
    (stake_my_obs f e amount).farm.accounts = f.accounts ∧
    (unstake_my_obs f e amount).farm.accounts = f.accounts ∧
    (∀ f1 a1,
      get_mut_account f e.predecessor_account_id e.block_timestamp = .ok (f1, a1) →
      register_account f e = .ok () (save_account f1 e.predecessor_account_id a1) []) := by
  refine ⟨?_, ?_, ?_⟩
  · cases hr : stake_my_obs f e amount with
    | ok a' f' acts => simpa [Res.farm] using (stake_ok_inv hr).2.2.2.2.2.2.2.1
    | abort m g acts => simpa [Res.farm] using (stake_abort_inv hr).2.1
  · cases hr : unstake_my_obs f e amount with
    | ok a' f' acts => simpa [Res.farm] using (unstake_ok_inv hr).2.2.2.2
    | abort m g acts => simpa [Res.farm] using (unstake_abort_inv hr).2
  · intro f1 a1 hg
    simp only [register_account, hg]

/-- Witness for C3 at a concrete farm: a stake leaves the (empty) ledger
function unchanged, and `register_account` stores the touched default record. -/
theorem ledger_writes_only_in_register_witness :
    (stake_my_obs emptyScenarioFarm aliceEnvZero 5).farm.accounts =
      emptyScenarioFarm.accounts ∧
    register_account emptyScenarioFarm aliceEnvZero =
      .ok () (save_account emptyScenarioFarm "alice"
               (default_account emptyScenarioFarm)) [] := by
  have h := ledger_writes_only_in_register emptyScenarioFarm aliceEnvZero 5
  exact ⟨h.1, h.2.2 emptyScenarioFarm (default_account emptyScenarioFarm) rfl⟩

/-- C4: code-bug evidence.  `get_reward_balance` is specified as observational
only, but it runs `touch` against `&mut self`: on the scenario farm, querying
"alice" at time 31536000 returns `1800 * 10^18` and leaves
`total_reward_farmed` advanced from 0 to `1800 * 10^18` in the farm state. -/
theorem get_reward_balance_mutates_total_reward_farmed :
    (get_reward_balance scenarioFarm "alice" 31536000).isOk = true ∧
    (get_reward_balance scenarioFarm "alice" 31536000).getD 0 =
      1800 * OBS_PER_REWARD_DENOM ∧
    scenarioFarm.total_reward_farmed = 0 ∧
    (get_reward_balance scenarioFarm "alice" 31536000).farm.total_reward_farmed =
      1800 * OBS_PER_REWARD_DENOM ∧
    (get_reward_balance scenarioFarm "alice" 31536000).farm.accounts "alice" =
      some aliceStart := by
  refine ⟨rfl, rfl, rfl, rfl, rfl⟩

/-- C5: `unstake_my_obs` panics whenever the requested amount exceeds the
staked balance of the loaded account (regardless of elapsed time), panics whenever
the elapsed time since deposit is below the cliff (for any amount within
balance), and returns normally only when both preconditions hold. -/
theorem unstake_preconditions (f : Farm) (e : Env) (amount : Nat) :
    ((loaded_account f e.predecessor_account_id).obs_balance < amount →
      (unstake_my_obs f e amount).isAbort = true) ∧
    (amount ≤ (loaded_account f e.predecessor_account_id).obs_balance →
      e.block_timestamp - (loaded_account f e.predecessor_account_id).deposit_time <
        f.cliff_time →
      (unstake_my_obs f e amount).isAbort = true) ∧
    (∀ a' f' acts, unstake_my_obs f e amount = .ok a' f' acts →
      amount ≤ (loaded_account f e.predecessor_account_id).obs_balance ∧
      f.cliff_time ≤
        e.block_timestamp - (loaded_account f e.predecessor_account_id).deposit_time) := by
  refine ⟨?_, ?_, ?_⟩
  · intro hbal
    exact (unstake_insufficient f e amount hbal).1
  · intro hbal hcl
    exact (unstake_locked f e amount hbal hcl).1
  · intro a' f' acts hr
    obtain ⟨-, h1, -, h2, -⟩ := unstake_ok_inv hr
    exact ⟨h1, h2⟩

/-- Witness for C5: an over-balance unstake and an early unstake abort on the
scenario farm, and a valid unstake past the cliff satisfies both
preconditions. -/
theorem unstake_preconditions_witness :
    (unstake_my_obs scenarioFarm aliceEnvLate 2).isAbort = true ∧
    (unstake_my_obs scenarioFarm aliceEnvEarly 1).isAbort = true ∧
    (1 ≤ (loaded_account scenarioFarm "alice").obs_balance ∧
      scenarioFarm.cliff_time ≤
        31536000 - (loaded_account scenarioFarm "alice").deposit_time) := by
  refine ⟨(unstake_preconditions scenarioFarm aliceEnvLate 2).1 (by decide),
          (unstake_preconditions scenarioFarm aliceEnvEarly 1).2.1 (by decide) (by decide),
          ?_⟩
  have h : unstake_my_obs scenarioFarm aliceEnvLate 1 =
      .ok ((unstake_my_obs scenarioFarm aliceEnvLate 1).getD
            (default_account scenarioFarm))
          (unstake_my_obs scenarioFarm aliceEnvLate 1).farm
          (unstake_my_obs scenarioFarm aliceEnvLate 1).actions := rfl
  exact (unstake_preconditions scenarioFarm aliceEnvLate 1).2.2 _ _ _ h

/-- C6: counterexample to the original claim.  On the scenario farm, "alice"
(staked balance 1, past the cliff) calls `unstake(2)`: the insufficient-balance
assert aborts the call with no transfer issued, but at the panic site
`total_reward_farmed` has already been advanced by `touch` from 0 to
`1800 * 10^18` — a FarmState field was mutated before the abort. -/
theorem unstake_abort_state_mutated_cex :
    (unstake_my_obs scenarioFarm aliceEnvLate 2).isAbort = true ∧
    (unstake_my_obs scenarioFarm aliceEnvLate 2).actions = [] ∧
    scenarioFarm.total_reward_farmed = 0 ∧
    (unstake_my_obs scenarioFarm aliceEnvLate 2).farm.total_reward_farmed =
      1800 * OBS_PER_REWARD_DENOM := by
  refine ⟨rfl, rfl, rfl, rfl⟩

/-- C6 (amended): every modelled precondition violation aborts before any
transfer is scheduled and leaves the ledger untouched.  The missing-payment,
zero-amount, lock-up and unauthorized-notify violations reach the panic with
the farm state exactly equal to its pre-call value; the insufficient-balance
abort of `unstake_my_obs` can be reached after `touch` (run inside
`get_mut_account`, before the balance assert) has already credited accrued
reward to the in-memory `total_reward_farmed` — every other field and the
ledger are still at their pre-call values there, and the platform reverts the
in-memory state when the panic aborts the transaction. -/
theorem precondition_violation_aborts (f : Farm) (e : Env) (amount : Nat)
    (sender : String) (tokenAmount : Nat) (tag : String) :
    (e.attached_deposit ≠ 1 →
      stake_my_obs f e amount =
        .abort "Requires attached deposit of exactly 1 yoctoNEAR" f [] ∧
      unstake_my_obs f e amount =
        .abort "Requires attached deposit of exactly 1 yoctoNEAR" f []) ∧
    (e.attached_deposit = 1 → amount = 0 →
      stake_my_obs f e amount = .abort "Amount must be greater than 0" f []) ∧
    ((loaded_account f e.predecessor_account_id).obs_balance < amount →
      (unstake_my_obs f e amount).isAbort = true ∧
      (unstake_my_obs f e amount).actions = [] ∧
      (unstake_my_obs f e amount).farm.accounts = f.accounts ∧
      { (unstake_my_obs f e amount).farm with
          total_reward_farmed := f.total_reward_farmed } = f) ∧
    (amount ≤ (loaded_account f e.predecessor_account_id).obs_balance →
      e.block_timestamp - (loaded_account f e.predecessor_account_id).deposit_time <
        f.cliff_time →
      (unstake_my_obs f e amount).isAbort = true ∧
      (unstake_my_obs f e amount).actions = [] ∧
      (unstake_my_obs f e amount).farm = f) ∧
    (e.predecessor_account_id ≠ f.obs_token_account_id →
      on_transfer f e sender tokenAmount tag =
        .abort "Only supports the one fungible token contract" f [] ∧
      ft_on_transfer f e sender tokenAmount tag =
        .abort "Only supports the one fungible token contract" f []) := by
  refine ⟨?_, ?_, ?_, ?_, ?_⟩
  · intro hy
    constructor
    · simp only [stake_my_obs, if_pos hy]
    · simp only [unstake_my_obs, if_pos hy]
  · intro hy hz
    subst hz
    simp [stake_my_obs, hy]
  · intro hbal
    obtain ⟨h1, h2, h3⟩ := unstake_insufficient f e amount hbal
    refine ⟨h1, h2, ?_, h3⟩
    have hcg := congrArg Farm.accounts h3
    simpa using hcg
  · intro hbal hcl
    exact unstake_locked f e amount hbal hcl
  · intro hp
    constructor
    · simp only [on_transfer, if_pos hp]
    · simp only [ft_on_transfer, if_pos hp]

/-- Witness for the amended C6: each violation kind exercised at a concrete
input on the scenario farm. -/
theorem precondition_violation_aborts_witness :
    stake_my_obs scenarioFarm aliceEnvNoDeposit 5 =
      .abort "Requires attached deposit of exactly 1 yoctoNEAR" scenarioFarm [] ∧
    stake_my_obs scenarioFarm aliceEnvLate 0 =
      .abort "Amount must be greater than 0" scenarioFarm [] ∧
    { (unstake_my_obs scenarioFarm aliceEnvLate 2).farm with
        total_reward_farmed := scenarioFarm.total_reward_farmed } = scenarioFarm ∧
    (unstake_my_obs scenarioFarm aliceEnvEarly 1).farm = scenarioFarm ∧
    on_transfer scenarioFarm bobEnv "bob" 7 "Stake" =
      .abort "Only supports the one fungible token contract" scenarioFarm [] := by
  refine ⟨((precondition_violation_aborts scenarioFarm aliceEnvNoDeposit 5 "bob" 7 "Stake").1
            (by decide)).1,
          (precondition_violation_aborts scenarioFarm aliceEnvLate 0 "bob" 7 "Stake").2.1
            rfl rfl,
          ((precondition_violation_aborts scenarioFarm aliceEnvLate 2 "bob" 7 "Stake").2.2.1
            (by decide)).2.2.2,
          ((precondition_violation_aborts scenarioFarm aliceEnvEarly 1 "bob" 7 "Stake").2.2.2.1
            (by decide) (by decide)).2.2,
          ((precondition_violation_aborts scenarioFarm bobEnv 5 "bob" 7 "Stake").2.2.2.2
            (by decide)).1⟩

/-- C7: past the cliff, `touch` is not idempotent — a second `touch` with the
same `deposit_time` credits the same `earned` amount again, doubling the
reward, and `total_reward_farmed` grows by `2 * earned`. -/
theorem touch_twice_adds_twice (f : Farm) (a : Account) (now : Nat)
    (hdt : a.deposit_time ≤ now)
    (h1 : a.obs_balance * (now - a.deposit_time) < U256_LIMIT)
    (h2 : a.obs_balance * (now - a.deposit_time) * f.reward_rate < U256_LIMIT)
    (hd : f.reward_interval ≠ 0)
    (h3 : earned f a.obs_balance (now - a.deposit_time) < U128_LIMIT)
    (hcliff : f.cliff_time < now - a.deposit_time)
    (h4 : a.reward_balance + 2 * earned f a.obs_balance (now - a.deposit_time) < U128_LIMIT)
    (h5 : f.total_reward_farmed + 2 * earned f a.obs_balance (now - a.deposit_time) <
      U128_LIMIT) :
    ∃ f1 a1 s1 f2 a2 s2,
      touch f a now = .ok (f1, a1, s1) ∧
      touch f1 a1 now = .ok (f2, a2, s2) ∧
      a1.reward_balance =
        a.reward_balance + earned f a.obs_balance (now - a.deposit_time) ∧
      a2.reward_balance =
        a.reward_balance + 2 * earned f a.obs_balance (now - a.deposit_time) ∧
      f2.total_reward_farmed =
        f.total_reward_farmed + 2 * earned f a.obs_balance (now - a.deposit_time) := by
  have ht1 := touch_eq_above f a now hdt h1 h2 hd h3 hcliff (by omega) (by omega)
  have ht2 := touch_eq_above
      { f with total_reward_farmed :=
          f.total_reward_farmed + earned f a.obs_balance (now - a.deposit_time) }
      { a with reward_balance :=
          a.reward_balance + earned f a.obs_balance (now - a.deposit_time) }
      now hdt h1 h2 hd h3 hcliff
      (by
        show a.reward_balance + earned f a.obs_balance (now - a.deposit_time) +
          earned f a.obs_balance (now - a.deposit_time) < U128_LIMIT
        omega)
      (by
        show f.total_reward_farmed + earned f a.obs_balance (now - a.deposit_time) +
          earned f a.obs_balance (now - a.deposit_time) < U128_LIMIT
        omega)
  refine ⟨_, _, _, _, _, _, ht1, ht2, rfl, ?_, ?_⟩
  · show a.reward_balance + earned f a.obs_balance (now - a.deposit_time) +
      earned f a.obs_balance (now - a.deposit_time) =
        a.reward_balance + 2 * earned f a.obs_balance (now - a.deposit_time)
    omega
  · show f.total_reward_farmed + earned f a.obs_balance (now - a.deposit_time) +
      earned f a.obs_balance (now - a.deposit_time) =
        f.total_reward_farmed + 2 * earned f a.obs_balance (now - a.deposit_time)
    omega

/-- Witness for C7: two touches of the 1-unit account on the scenario farm at
time 31536000 credit `earned = 1800 * 10^18` twice. -/
theorem touch_twice_adds_twice_witness :
    ∃ f1 a1 s1 f2 a2 s2,
      touch scenarioFarm aliceStart 31536000 = .ok (f1, a1, s1) ∧
      touch f1 a1 31536000 = .ok (f2, a2, s2) ∧
      a1.reward_balance = aliceStart.reward_balance +
        earned scenarioFarm aliceStart.obs_balance (31536000 - aliceStart.deposit_time) ∧
      a2.reward_balance = aliceStart.reward_balance +
        2 * earned scenarioFarm aliceStart.obs_balance
          (31536000 - aliceStart.deposit_time) ∧
      f2.total_reward_farmed = scenarioFarm.total_reward_farmed +
        2 * earned scenarioFarm aliceStart.obs_balance
          (31536000 - aliceStart.deposit_time) :=
  touch_twice_adds_twice scenarioFarm aliceStart 31536000 (by decide) (by decide)
    (by decide) (by decide) (by decide) (by decide) (by decide) (by decide)

/-- C8: past the cliff, a single `touch` adds exactly
`staked_balance * elapsed * reward_rate / reward_interval * 10^18` (floor
division before the `10^18` scaling, products formed in 256-bit intermediates)
to `reward_balance`, and the same amount to `total_reward_farmed`. -/
theorem touch_adds_scaled_floor_formula (f : Farm) (a : Account) (now : Nat)
    (hdt : a.deposit_time ≤ now) (hd : f.reward_interval ≠ 0)
    (h1 : a.obs_balance * (now - a.deposit_time) < U256_LIMIT)
    (h2 : a.obs_balance * (now - a.deposit_time) * f.reward_rate < U256_LIMIT)
    (h3 : a.obs_balance * (now - a.deposit_time) * f.reward_rate / f.reward_interval *
        OBS_PER_REWARD_DENOM < U128_LIMIT)
    (hcliff : f.cliff_time < now - a.deposit_time)
    (h4 : a.reward_balance + a.obs_balance * (now - a.deposit_time) * f.reward_rate /
        f.reward_interval * OBS_PER_REWARD_DENOM < U128_LIMIT)
    (h5 : f.total_reward_farmed + a.obs_balance * (now - a.deposit_time) * f.reward_rate /
        f.reward_interval * OBS_PER_REWARD_DENOM < U128_LIMIT) :
    touch f a now = .ok
      ({ f with total_reward_farmed := f.total_reward_farmed +
          a.obs_balance * (now - a.deposit_time) * f.reward_rate / f.reward_interval *
            OBS_PER_REWARD_DENOM },
       { a with reward_balance := a.reward_balance +
          a.obs_balance * (now - a.deposit_time) * f.reward_rate / f.reward_interval *
            OBS_PER_REWARD_DENOM },
       a.last_obs_per_reward_rate) :=
  touch_eq_above f a now hdt h1 h2 hd h3 hcliff h4 h5

/-- Witness for C8 with the §8 scenario numbers: `staked = 1000`,
`reward_rate = 1800`, `reward_interval = 31536000`, elapsed `31536000` past the
cliff; the credited amount is exactly
`floor(1000 * 31536000 * 1800 / 31536000) * 10^18 = 1800000 * 10^18`. -/
theorem touch_adds_scaled_floor_formula_witness :
    touch scenarioFarm c8Account 31536000 = .ok
      ({ scenarioFarm with total_reward_farmed := scenarioFarm.total_reward_farmed +
          c8Account.obs_balance * (31536000 - c8Account.deposit_time) *
            scenarioFarm.reward_rate / scenarioFarm.reward_interval *
            OBS_PER_REWARD_DENOM },
       { c8Account with reward_balance := c8Account.reward_balance +
          c8Account.obs_balance * (31536000 - c8Account.deposit_time) *
            scenarioFarm.reward_rate / scenarioFarm.reward_interval *
            OBS_PER_REWARD_DENOM },
       c8Account.last_obs_per_reward_rate) ∧
    1000 * 31536000 * 1800 / 31536000 * OBS_PER_REWARD_DENOM =
      1800000 * OBS_PER_REWARD_DENOM :=
  ⟨touch_adds_scaled_floor_formula scenarioFarm c8Account 31536000 (by decide)
      (by decide) (by decide) (by decide) (by decide) (by decide) (by decide) (by decide),
    by decide⟩

/-- C9: `register_account` on an already-present, past-cliff account with a
positive staked balance persists a freshly touched copy: the stored
`reward_balance` and `total_reward_farmed` both grow by exactly
`earned = staked * elapsed * reward_rate / reward_interval * 10^18`; nothing
resets `deposit_time`, so each further call adds the amount again. -/
theorem register_account_compounds_reward (f : Farm) (e : Env) (a : Account)
    (hacct : f.accounts e.predecessor_account_id = some a)
    (hobs : 0 < a.obs_balance)
    (hdt : a.deposit_time ≤ e.block_timestamp)
    (hd : f.reward_interval ≠ 0)
    (h1 : a.obs_balance * (e.block_timestamp - a.deposit_time) < U256_LIMIT)
    (h2 : a.obs_balance * (e.block_timestamp - a.deposit_time) * f.reward_rate <
      U256_LIMIT)
    (h3 : earned f a.obs_balance (e.block_timestamp - a.deposit_time) < U128_LIMIT)
    (hcliff : f.cliff_time < e.block_timestamp - a.deposit_time)
    (h4 : a.reward_balance +
        earned f a.obs_balance (e.block_timestamp - a.deposit_time) < U128_LIMIT)
    (h5 : f.total_reward_farmed +
        earned f a.obs_balance (e.block_timestamp - a.deposit_time) < U128_LIMIT) :
    ∃ f', register_account f e = .ok () f' [] ∧
      f'.accounts e.predecessor_account_id =
        some { a with reward_balance := (a.reward_balance +
          earned f a.obs_balance (e.block_timestamp - a.deposit_time)) } ∧
      f'.total_reward_farmed = f.total_reward_farmed +
        earned f a.obs_balance (e.block_timestamp - a.deposit_time) := by
  have hload : loaded_account f e.predecessor_account_id = a := by
    simp [loaded_account, get_internal_account, hacct]
  have ht : touch f (loaded_account f e.predecessor_account_id) e.block_timestamp =
      .ok ({ f with total_reward_farmed := f.total_reward_farmed +
              earned f a.obs_balance (e.block_timestamp - a.deposit_time) },
           { a with reward_balance := a.reward_balance +
              earned f a.obs_balance (e.block_timestamp - a.deposit_time) },
           a.last_obs_per_reward_rate) := by
    rw [hload]
    exact touch_eq_above f a e.block_timestamp hdt h1 h2 hd h3 hcliff h4 h5
  have hg := get_mut_account_eq ht
  refine ⟨save_account
      { f with total_reward_farmed := f.total_reward_farmed +
          earned f a.obs_balance (e.block_timestamp - a.deposit_time) }
      e.predecessor_account_id
      { a with reward_balance := a.reward_balance +
          earned f a.obs_balance (e.block_timestamp - a.deposit_time) }, ?_, ?_, ?_⟩
  · simp only [register_account, hg]
  · simp [save_account]
  · simp [save_account]

/-- Witness for C9: registering "alice" (1 unit staked since time 0) on the
scenario farm at time 31536000 stores `reward_balance = 1800 * 10^18` and
advances `total_reward_farmed` by the same amount. -/
theorem register_account_compounds_reward_witness :
    ∃ f', register_account scenarioFarm aliceEnvLate = .ok () f' [] ∧
      f'.accounts "alice" =
        some { aliceStart with reward_balance := (aliceStart.reward_balance +
          earned scenarioFarm aliceStart.obs_balance
            (31536000 - aliceStart.deposit_time)) } ∧
      f'.total_reward_farmed = scenarioFarm.total_reward_farmed +
        earned scenarioFarm aliceStart.obs_balance
          (31536000 - aliceStart.deposit_time) :=
  register_account_compounds_reward scenarioFarm aliceEnvLate aliceStart (by decide)
    (by decide) (by decide) (by decide) (by decide) (by decide) (by decide) (by decide)
    (by decide) (by decide)

/-- C10: when invoked with `block_timestamp < cliff_time`, `stake_my_obs`
always panics (the checked `block_timestamp - cliff_time` subtraction
underflows at the latest), and at the panic site `obs_per_reward_rate` and
`total_obs_balance` still hold their pre-call values and no transfer has been
issued. -/
theorem stake_underflow_before_cliff (f : Farm) (e : Env) (amount : Nat)
    (hcliff : e.block_timestamp < f.cliff_time) :
    (stake_my_obs f e amount).isAbort = true ∧
    (stake_my_obs f e amount).actions = [] ∧
    (stake_my_obs f e amount).farm.obs_per_reward_rate = f.obs_per_reward_rate ∧
    (stake_my_obs f e amount).farm.total_obs_balance = f.total_obs_balance := by
  cases hr : stake_my_obs f e amount with
  | ok a' f' acts =>
    have hge := (stake_ok_inv hr).2.2.2.2.2.2.2.2.2
    exact absurd hge (by omega)
  | abort m g acts =>
    obtain ⟨hacts, -, -, htob, hdisj⟩ := stake_abort_inv hr
    subst hacts
    refine ⟨rfl, rfl, ?_, htob⟩
    rcases hdisj with hopr | hge
    · exact hopr
    · exact absurd hge (by omega)

/-- Witness for C10: a stake at time 100 (before the 864000 cliff) on the
scenario farm panics with no transfer and no aggregate update. -/
theorem stake_underflow_before_cliff_witness :
    (stake_my_obs scenarioFarm aliceEnvEarly 5).isAbort = true ∧
    (stake_my_obs scenarioFarm aliceEnvEarly 5).actions = [] ∧
    (stake_my_obs scenarioFarm aliceEnvEarly 5).farm.obs_per_reward_rate =
      scenarioFarm.obs_per_reward_rate ∧
    (stake_my_obs scenarioFarm aliceEnvEarly 5).farm.total_obs_balance =
      scenarioFarm.total_obs_balance :=
  stake_underflow_before_cliff scenarioFarm aliceEnvEarly 5 (by decide)
